import Mathlib

/-! A shallow embedding in Lean 4 of the image-compositing core of the
NBSCHOOL repository, `composer_utils.py`, together with theorems checking
the specification of the repository against that code.

Modelling conventions:
* A PIL image is a rectangular grid of pixels.  An RGBA image is a
  `width`, a `height` and a total pixel function `Nat → Nat → RGBA`;
  only the values at coordinates `x < width`, `y < height` are meaningful.
* Machine bytes are `Nat` (meaningful values lie in `0..255`), sizes are
  `Nat`, paste offsets are `Int` (they may be negative), and Python floats
  are modelled by exact rational arithmetic over `ℚ`.  Python `int(...)`
  applied to a float is truncation toward zero (`truncQ` below) and
  Python `//` is floor division (`Int.fdiv`).
* Library primitives of PIL that the code calls (`Image.new`, `paste`,
  `alpha_composite`, `getchannel`, `putalpha`, `point`, `getextrema`) are
  embedded following the documented and implemented semantics of PIL.  The pixel
  kernels of `Image.resize` (LANCZOS) and `ImageFilter.GaussianBlur`
  produce pixel data that no claim depends on; the pipeline is
  parametrised by their content functions (`lanczos`, `gauss`), while the
  size contracts PIL guarantees (a resize has exactly the requested size,
  a filtered image keeps its size) are part of the embedding.
-/

namespace NBSchool

/-- One RGBA pixel: four 8-bit channels red, green, blue, alpha. -/
structure RGBA where
  r : Nat
  g : Nat
  b : Nat
  a : Nat
deriving DecidableEq, Repr

/-- One RGB pixel (mode "RGB", no alpha channel). -/
structure RGB where
  r : Nat
  g : Nat
  b : Nat
deriving DecidableEq, Repr

/-- An image in mode "RGBA": a grid of RGBA pixels. -/
structure Img where
  width : Nat
  height : Nat
  px : Nat → Nat → RGBA

/-- An image in mode "RGB": a grid of RGB pixels. -/
structure RGBImg where
  width : Nat
  height : Nat
  px : Nat → Nat → RGB

/-- A single-band image in mode "L" (an alpha mask extracted by
`getchannel`): a grid of bytes. -/
structure Mask where
  width : Nat
  height : Nat
  px : Nat → Nat → Nat

/-- A decoded PIL image as `compose_one_bytes` may receive it.  The code
branches on `img.mode`: mode "RGBA" and mode "RGB" are carried with their
pixel grids; every other mode ("LA", "P", and the final fallback) is sent
through the library call `img.convert("RGBA")`, so such an image is
represented by the RGBA image that conversion yields. -/
inductive PILImage where
  | rgba (i : Img)
  | rgb (i : RGBImg)
  | convertible (conv : Img)

/-- PIL `Image.new(mode, size, color)` for mode "RGBA": a constant canvas. -/
def newImg (w h : Nat) (c : RGBA) : Img := ⟨w, h, fun _ _ => c⟩

/-- The PIL `MULDIV255` kernel macro: an approximate `(a*b)/255` with
rounding, computed as `tmp = a*b + 128; ((tmp >> 8) + tmp) >> 8`. -/
def muldiv255 (a b : Nat) : Nat :=
  ((a * b + 128) / 256 + (a * b + 128)) / 256

/-- The PIL `BLEND` kernel macro used by `paste` with an 8-bit mask:
`BLEND(mask, in1, in2) = MULDIV255(in1, 255 - mask) + MULDIV255(in2, mask)`
where `in1` is the destination channel and `in2` the source channel. -/
def blendMask (mask in1 in2 : Nat) : Nat :=
  muldiv255 in1 (255 - mask) + muldiv255 in2 mask

/-- PIL `dst.paste(src, (ox, oy), src)` — paste an RGBA image with itself as
mask.  Inside the (clipped) source rectangle every channel of the
destination is blended with the source channel under the alpha band of the source; outside it the destination is unchanged. -/
def pasteMask (dst src : Img) (ox oy : Int) : Img :=
  ⟨dst.width, dst.height, fun x y =>
    if 0 ≤ (x : Int) - ox ∧ (x : Int) - ox < src.width ∧
        0 ≤ (y : Int) - oy ∧ (y : Int) - oy < src.height then
      let s := src.px ((x : Int) - ox).toNat ((y : Int) - oy).toNat
      let d := dst.px x y
      ⟨blendMask s.a d.r s.r, blendMask s.a d.g s.g,
       blendMask s.a d.b s.b, blendMask s.a d.a s.a⟩
    else dst.px x y⟩

/-- PIL `dst.paste(src, (ox, oy))` for an RGB source and an RGBA destination,
without a mask: PIL converts the source to the destination mode first
(RGB → RGBA sets alpha to 255) and then overwrites the pasted region. -/
def pasteRGB (dst : Img) (src : RGBImg) (ox oy : Int) : Img :=
  ⟨dst.width, dst.height, fun x y =>
    if 0 ≤ (x : Int) - ox ∧ (x : Int) - ox < src.width ∧
        0 ≤ (y : Int) - oy ∧ (y : Int) - oy < src.height then
      let s := src.px ((x : Int) - ox).toNat ((y : Int) - oy).toNat
      ⟨s.r, s.g, s.b, 255⟩
    else dst.px x y⟩

/-- One pixel of `Image.alpha_composite(dst, src)` (Porter-Duff "over"),
following the integer implementation of PIL in `AlphaComposite.c` with its
7 extra precision bits and `SHIFTFORDIV255` rounding. -/
def alphaCompositePx (d s : RGBA) : RGBA :=
  if s.a = 0 then d
  else
    let blendv := d.a * (255 - s.a)
    let outa255 := s.a * 255 + blendv
    let coef1 := s.a * 255 * 255 * 128 / outa255
    let coef2 := 255 * 128 - coef1
    let sh : Nat → Nat := fun t => (t / 256 + t) / 256
    ⟨sh (s.r * coef1 + d.r * coef2 + 128 * 128) / 128,
     sh (s.g * coef1 + d.g * coef2 + 128 * 128) / 128,
     sh (s.b * coef1 + d.b * coef2 + 128 * 128) / 128,
     sh (outa255 + 128)⟩

/-- PIL `Image.alpha_composite(dst, src)` — `src` composited over `dst`.
The code only calls it on images of identical size. -/
def alphaComposite (dst src : Img) : Img :=
  ⟨dst.width, dst.height, fun x y => alphaCompositePx (dst.px x y) (src.px x y)⟩

/-- PIL `img.getchannel("A")`: the alpha band as a mode-"L" image. -/
def getchannelA (i : Img) : Mask :=
  ⟨i.width, i.height, fun x y => (i.px x y).a⟩

/-- PIL `img.putalpha(mask)`: replace the alpha band. -/
def putalpha (i : Img) (m : Mask) : Img :=
  ⟨i.width, i.height, fun x y =>
    let p := i.px x y
    ⟨p.r, p.g, p.b, m.px x y⟩⟩

/-- The pixel values of a mask, row by row (used to state `getextrema`). -/
def Mask.values (m : Mask) : List Nat :=
  (List.range m.height).flatMap fun y =>
    (List.range m.width).map fun x => m.px x y

/-- PIL `img.getextrema()` on a single-band image: `(min, max)` over all
pixels, and nothing when the image has no pixels (the code guards the
empty answer with `if not extrema`). -/
def getextrema (m : Mask) : Option (Nat × Nat) :=
  match m.values with
  | [] => none
  | v :: vs => some (vs.foldl min v, vs.foldl max v)

/-- Python `int(...)` applied to a (here exactly represented) real
number: truncation toward zero. -/
def truncQ (q : ℚ) : Int :=
  if 0 ≤ q then ⌊q⌋ else -⌊-q⌋

/-- Python `str.upper()` restricted to ASCII, which is all the format
strings the code compares against. -/
def pyUpper (s : String) : String :=
  ⟨s.data.map Char.toUpper⟩

/-- Embedding of `ensure_rgba` (composer_utils.py lines 13–22): mode "RGBA" is
returned as-is; mode "RGB" is pasted at `(0, 0)` into a freshly created
fully-transparent black canvas of the same size; every other mode goes
through `img.convert("RGBA")`, whose result the `convertible`
constructor carries. -/
def ensure_rgba (img : PILImage) : Img :=
  match img with
  | .rgba i => i
  | .rgb i => pasteRGB (newImg i.width i.height ⟨0, 0, 0, 0⟩) i 0 0
  | .convertible conv => conv

/-- Embedding of `has_useful_alpha` (lines 25–32): normalize, take the extrema of the alpha band, answer `false` on no extrema, on `min = max = 255` and on
`min = max = 0`, and `true` otherwise. -/
def has_useful_alpha (img : PILImage) : Bool :=
  let i := ensure_rgba img
  match getextrema (getchannelA i) with
  | none => false
  | some (min_a, max_a) =>
      !(min_a = 255 && max_a = 255) && !(min_a = 0 && max_a = 0)

/-- Embedding of `compute_anchor_position` (lines 35–49): the nine named anchors with
the Python floor division `//`, and the `center` entry for any other
name (`positions.get(anchor, positions["center"])`). -/
def compute_anchor_position (bg_size fg_size : Nat × Nat) (anchor : String) :
    Int × Int :=
  let W : Int := bg_size.1
  let H : Int := bg_size.2
  let w : Int := fg_size.1
  let h : Int := fg_size.2
  match anchor with
  | "top" => ((W - w).fdiv 2, 0)
  | "bottom" => ((W - w).fdiv 2, H - h)
  | "left" => (0, (H - h).fdiv 2)
  | "right" => (W - w, (H - h).fdiv 2)
  | "top-left" => (0, 0)
  | "top-right" => (W - w, 0)
  | "bottom-left" => (0, H - h)
  | "bottom-right" => (W - w, H - h)
  | _ => ((W - w).fdiv 2, (H - h).fdiv 2)

/-- One entry of `SHADOW_PRESETS` (lines 5–10): blur radius, alpha
scale, and the two offset fractions. -/
structure Preset where
  blur : Nat
  alpha : Int
  offset_x : ℚ
  offset_y : ℚ

/-- The `"off"` preset: `{"blur": 0, "alpha": 0, "offset_x": 0.0, "offset_y": 0.0}`. -/
def presetOff : Preset := ⟨0, 0, 0, 0⟩

/-- The `"light"` preset: `{"blur": 6, "alpha": 100, "offset_x": 0.006, "offset_y": 0.006}`. -/
def presetLight : Preset := ⟨6, 100, 6 / 1000, 6 / 1000⟩

/-- The `"medium"` preset: `{"blur": 14, "alpha": 160, "offset_x": 0.012, "offset_y": 0.012}`. -/
def presetMedium : Preset := ⟨14, 160, 12 / 1000, 12 / 1000⟩

/-- The `"strong"` preset: `{"blur": 24, "alpha": 220, "offset_x": 0.018, "offset_y": 0.018}`. -/
def presetStrong : Preset := ⟨24, 220, 18 / 1000, 18 / 1000⟩

/-- The `SHADOW_PRESETS` dictionary as a lookup. -/
def SHADOW_PRESETS (name : String) : Option Preset :=
  match name with
  | "off" => some presetOff
  | "light" => some presetLight
  | "medium" => some presetMedium
  | "strong" => some presetStrong
  | _ => none

/-- The options `compose_one_bytes` reads from `**opts`; an absent key
is `none` and the `opts.get(key, default)` of the code is `Option.getD`. -/
structure Opts where
  resize_factor : Option ℚ
  anchor : Option String
  composition_mode : Option String
  shadow_preset : Option String
  out_format : Option String
  quality : Option Int

/-- The resize step (lines 56–61): clamp a non-positive resize factor to
`1.0`; when the (clamped) factor is not `1.0`, resize to
`(max 1 (int (width * factor)), max 1 (int (height * factor)))` with the
LANCZOS filter, whose pixel content is the parameter `lanczos`. -/
def resizeStep (lanczos : Nat × Nat → Img → Nat → Nat → RGBA)
    (img : Img) (factor0 : ℚ) : Img :=
  let factor := if factor0 ≤ 0 then 1 else factor0
  if factor ≠ 1 then
    let new_size := (max 1 (truncQ (img.width * factor)).toNat,
                     max 1 (truncQ (img.height * factor)).toNat)
    ⟨new_size.1, new_size.2, lanczos new_size img⟩
  else img

/-- The shadow offset `dx` (line 101):
`int(template_rgba.width * preset["offset_x"])`. -/
def shadowDx (template_w : Nat) (p : Preset) : Int :=
  truncQ (template_w * p.offset_x)

/-- The shadow offset `dy` (line 102):
`int(template_rgba.height * preset["offset_y"])`. -/
def shadowDy (template_h : Nat) (p : Preset) : Int :=
  truncQ (template_h * p.offset_y)

/-- The point table `p * scale` (line 96) with `scale = max(0, min(255, alpha)) / 255.0`
truncated by `int(...)`: the `point` table applied to the blurred mask. -/
def maskPoint (alpha : Int) (m : Mask) : Mask :=
  let clamped := (max 0 (min 255 alpha)).toNat
  ⟨m.width, m.height, fun x y => m.px x y * clamped / 255⟩

/-- A scratch layer the size of `canvas` with `src` pasted at `pos`
under its own alpha (lines 72–73, 76–77, 104–105, 108–109):
`Image.new("RGBA", canvas.size, (0,0,0,0))` then
`layer.paste(src, pos, src)`. -/
def layerAt (canvas src : Img) (pos : Int × Int) : Img :=
  pasteMask (newImg canvas.width canvas.height ⟨0, 0, 0, 0⟩) src pos.1 pos.2

/-- The frame-mode branch (lines 69–78): a fully-opaque white canvas the
size of the template, the item alpha-composited at the anchor position,
then the template alpha-composited on top. -/
def frameBranch (item_rgba template_rgba : Img) (pos : Int × Int) : Img :=
  let final0 := newImg template_rgba.width template_rgba.height ⟨255, 255, 255, 255⟩
  let final1 := alphaComposite final0 (layerAt final0 item_rgba pos)
  alphaComposite final1 (layerAt final1 template_rgba (0, 0))

/-- The shadow synthesis and compositing step (lines 87–106): blur the
alpha band of the item by the preset radius (`gauss` is the content of the Gaussian kernel; radius 0 uses the mask as-is), scale it by `alpha/255`, build a
black image with that alpha, and composite it at
`(x + dx, y + dy)` onto the canvas. -/
def shadowStep (gauss : Nat → Mask → Nat → Nat → Nat)
    (item_rgba template_rgba : Img) (pos : Int × Int) (preset : Preset)
    (canvas : Img) : Img :=
  let alpha_mask := getchannelA item_rgba
  let alpha_blurred :=
    if 0 < preset.blur then
      ⟨alpha_mask.width, alpha_mask.height, gauss preset.blur alpha_mask⟩
    else alpha_mask
  let alpha_scaled := maskPoint preset.alpha alpha_blurred
  let shadow_rgba := putalpha (newImg item_rgba.width item_rgba.height ⟨0, 0, 0, 0⟩) alpha_scaled
  let dx := shadowDx template_rgba.width preset
  let dy := shadowDy template_rgba.height preset
  alphaComposite canvas (layerAt canvas shadow_rgba (pos.1 + dx, pos.2 + dy))

/-- The normal-mode branch (lines 79–110): start from the template; when
the item has useful alpha and the alpha scale of the preset is positive,
composite the synthesized shadow first; then composite the item at the
anchor position. -/
def normalBranch (gauss : Nat → Mask → Nat → Nat → Nat)
    (item_rgba template_rgba : Img) (pos : Int × Int) (o : Opts) : Img :=
  let final0 := template_rgba
  let final1 :=
    if has_useful_alpha (.rgba item_rgba) then
      let preset := (SHADOW_PRESETS (o.shadow_preset.getD "off")).getD presetOff
      if 0 < preset.alpha then
        shadowStep gauss item_rgba template_rgba pos preset final0
      else final0
    else final0
  alphaComposite final1 (layerAt final1 item_rgba pos)

/-- The flattened image `compose_one_bytes` builds before encoding
(lines 52–110): normalize both inputs, resize the item, resolve the
anchor, then run the frame branch when `composition_mode` is `"frame"`
and the normal branch otherwise. -/
def composeFinalImg (lanczos : Nat × Nat → Img → Nat → Nat → RGBA)
    (gauss : Nat → Mask → Nat → Nat → Nat)
    (item_img template_img : PILImage) (o : Opts) : Img :=
  let template_rgba := ensure_rgba template_img
  let item_rgba := resizeStep lanczos (ensure_rgba item_img) (o.resize_factor.getD 1)
  let pos := compute_anchor_position (template_rgba.width, template_rgba.height)
    (item_rgba.width, item_rgba.height) (o.anchor.getD "center")
  if o.composition_mode.getD "normal" = "frame" then
    frameBranch item_rgba template_rgba pos
  else
    normalBranch gauss item_rgba template_rgba pos o

/-- The encoded output, pre-serialization.  JPEG carries a 3-channel
image and the quality integer handed to the lossy encoder; PNG carries
the RGBA image losslessly. -/
inductive OutImage where
  | jpeg (img : RGBImg) (quality : Int)
  | png (img : Img)

/-- The white-flattening PIL performs for JPEG (lines 116–119):
`background = Image.new("RGB", size, (255,255,255))` then
`background.paste(final_img, mask=final_img.split()[3])` — every channel
is blended between white and the source under the alpha of the source. -/
def flattenWhite (i : Img) : RGBImg :=
  ⟨i.width, i.height, fun x y =>
    let p := i.px x y
    ⟨blendMask p.a 255 p.r, blendMask p.a 255 p.g, blendMask p.a 255 p.b⟩⟩

/-- The encoding step (lines 112–126): uppercase
`opts.get("out_format", "JPEG")`; on `"JPEG"` flatten onto white (the
image of the pipeline is always mode RGBA, so the `convert("RGB")` fallback of
line 121 is unreachable here), encode with `opts.get("quality", 92)` and
extension `"jpg"`; on anything else encode as PNG with alpha intact and
extension `"png"`.  Byte serialization itself is abstracted to the
pre-encoding image. -/
def encodeOut (final_img : Img) (o : Opts) : OutImage × String :=
  if pyUpper (o.out_format.getD "JPEG") = "JPEG" then
    (OutImage.jpeg (flattenWhite final_img) (o.quality.getD 92), "jpg")
  else
    (OutImage.png final_img, "png")

/-- Embedding of `compose_one_bytes` (lines 52–129): the flattened composite followed
by the encoding step. -/
def compose_one_bytes (lanczos : Nat × Nat → Img → Nat → Nat → RGBA)
    (gauss : Nat → Mask → Nat → Nat → Nat)
    (item_img template_img : PILImage) (o : Opts) : OutImage × String :=
  encodeOut (composeFinalImg lanczos gauss item_img template_img o) o

/-- The normal-mode branch with the shadow synthesis step (lines 82–106)
deleted outright: the template with the item composited at the anchor
position and nothing else. -/
def normalBranchNoShadow (item_rgba template_rgba : Img) (pos : Int × Int) : Img :=
  alphaComposite template_rgba (layerAt template_rgba item_rgba pos)

/-- Variant of `composeFinalImg` with the shadow synthesis step skipped entirely. -/
def composeFinalImgNoShadow (lanczos : Nat × Nat → Img → Nat → Nat → RGBA)
    (item_img template_img : PILImage) (o : Opts) : Img :=
  let template_rgba := ensure_rgba template_img
  let item_rgba := resizeStep lanczos (ensure_rgba item_img) (o.resize_factor.getD 1)
  let pos := compute_anchor_position (template_rgba.width, template_rgba.height)
    (item_rgba.width, item_rgba.height) (o.anchor.getD "center")
  if o.composition_mode.getD "normal" = "frame" then
    frameBranch item_rgba template_rgba pos
  else
    normalBranchNoShadow item_rgba template_rgba pos

/-- Variant of `compose_one_bytes` with the shadow synthesis step skipped entirely. -/
def compose_one_bytes_no_shadow (lanczos : Nat × Nat → Img → Nat → Nat → RGBA)
    (item_img template_img : PILImage) (o : Opts) : OutImage × String :=
  encodeOut (composeFinalImgNoShadow lanczos item_img template_img o) o

/-- Modelled from the words of the spec for frame mode: build a new
fully-opaque white canvas the size of the template; paint the item at
the anchor position onto a transparent scratch layer and alpha-composite
it onto the canvas; then paint the template over everything,
alpha-composited on top. -/
def frameModeSpec (item template : Img) (pos : Int × Int) : Img :=
  let canvas := newImg template.width template.height ⟨255, 255, 255, 255⟩
  let withItem := alphaComposite canvas (layerAt canvas item pos)
  alphaComposite withItem (layerAt withItem template (0, 0))

/-! Generic facts about `foldl min` and `foldl max`, used for `getextrema`. -/

lemma foldl_min_mem (v : Nat) (vs : List Nat) : vs.foldl min v ∈ v :: vs := by
  induction vs generalizing v with
  | nil => simp
  | cons a t ih =>
    rw [List.foldl_cons]
    rcases List.mem_cons.mp (ih (min v a)) with h1 | h1
    · rw [h1]
      rcases min_choice v a with h2 | h2 <;> rw [h2] <;> simp
    · simp [h1]

lemma foldl_min_le (v : Nat) (vs : List Nat) :
    ∀ a ∈ v :: vs, vs.foldl min v ≤ a := by
  induction vs generalizing v with
  | nil =>
    intro a ha
    rw [List.mem_singleton] at ha
    simp [ha]
  | cons b t ih =>
    intro a ha
    rw [List.foldl_cons]
    have hmin : t.foldl min (min v b) ≤ min v b :=
      ih (min v b) (min v b) (List.mem_cons_self _ _)
    rcases List.mem_cons.mp ha with h1 | h1
    · rw [h1]
      exact le_trans hmin (min_le_left _ _)
    · rcases List.mem_cons.mp h1 with h2 | h2
      · rw [h2]
        exact le_trans hmin (min_le_right _ _)
      · exact ih (min v b) a (List.mem_cons_of_mem _ h2)

lemma foldl_max_mem (v : Nat) (vs : List Nat) : vs.foldl max v ∈ v :: vs := by
  induction vs generalizing v with
  | nil => simp
  | cons a t ih =>
    rw [List.foldl_cons]
    rcases List.mem_cons.mp (ih (max v a)) with h1 | h1
    · rw [h1]
      rcases max_choice v a with h2 | h2 <;> rw [h2] <;> simp
    · simp [h1]

lemma le_foldl_max (v : Nat) (vs : List Nat) :
    ∀ a ∈ v :: vs, a ≤ vs.foldl max v := by
  induction vs generalizing v with
  | nil =>
    intro a ha
    rw [List.mem_singleton] at ha
    simp [ha]
  | cons b t ih =>
    intro a ha
    rw [List.foldl_cons]
    have hmax : max v b ≤ t.foldl max (max v b) :=
      ih (max v b) (max v b) (List.mem_cons_self _ _)
    rcases List.mem_cons.mp ha with h1 | h1
    · rw [h1]
      exact le_trans (le_max_left _ _) hmax
    · rcases List.mem_cons.mp h1 with h2 | h2
      · rw [h2]
        exact le_trans (le_max_right _ _) hmax
      · exact ih (max v b) a (List.mem_cons_of_mem _ h2)

/-- Both extrema of a nonempty value list equal `c` exactly when every
value equals `c`. -/
lemma foldl_min_max_eq_iff (v : Nat) (vs : List Nat) (c : Nat) :
    (vs.foldl min v = c ∧ vs.foldl max v = c) ↔ ∀ a ∈ v :: vs, a = c := by
  constructor
  · rintro ⟨hmin, hmax⟩ a ha
    have h1 := foldl_min_le v vs a ha
    have h2 := le_foldl_max v vs a ha
    omega
  · intro hall
    exact ⟨hall _ (foldl_min_mem v vs), hall _ (foldl_max_mem v vs)⟩

/-- Membership in the value list of a mask is existence of in-bounds
coordinates carrying the value. -/
lemma mask_values_mem (m : Mask) (a : Nat) :
    a ∈ m.values ↔ ∃ y, y < m.height ∧ ∃ x, x < m.width ∧ m.px x y = a := by
  simp [Mask.values, List.mem_flatMap, List.mem_map, List.mem_range]

/-- C1.  For every 4-channel image, `has_useful_alpha` returns `false`
precisely when the alpha of every pixel equals 255 or the alpha of every pixel
equals 0, and `true` in every other case (some alphas differ, or all
alphas share one value strictly between 0 and 255). -/
theorem has_useful_alpha_false_iff_uniform (i : Img) :
    has_useful_alpha (.rgba i) = false ↔
      ((∀ x < i.width, ∀ y < i.height, (i.px x y).a = 255) ∨
       (∀ x < i.width, ∀ y < i.height, (i.px x y).a = 0)) := by
  have hmem := mask_values_mem (getchannelA i)
  simp only [getchannelA] at hmem
  have hpix : ∀ c : Nat, (∀ a ∈ (getchannelA i).values, a = c) ↔
      (∀ x < i.width, ∀ y < i.height, (i.px x y).a = c) := by
    intro c
    constructor
    · intro hall x hx y hy
      exact hall _ ((hmem _).mpr ⟨y, hy, x, hx, rfl⟩)
    · intro hall a ha
      obtain ⟨y, hy, x, hx, hxy⟩ := (hmem a).mp ha
      exact hxy ▸ hall x hx y hy
  show (match getextrema (getchannelA i) with
    | none => false
    | some (min_a, max_a) =>
        !(min_a = 255 && max_a = 255) && !(min_a = 0 && max_a = 0)) = false ↔ _
  unfold getextrema
  cases hv : (getchannelA i).values with
  | nil =>
    simp only [iff_true_intro rfl, true_iff]
    left
    intro x hx y hy
    have : (i.px x y).a ∈ (getchannelA i).values :=
      (hmem _).mpr ⟨y, hy, x, hx, rfl⟩
    rw [hv] at this
    exact absurd this (List.not_mem_nil _)
  | cons v vs =>
    have h255 := (foldl_min_max_eq_iff v vs 255).trans (hv ▸ hpix 255)
    have h0 := (foldl_min_max_eq_iff v vs 0).trans (hv ▸ hpix 0)
    constructor
    · intro h
      simp only [Bool.and_eq_false_iff, Bool.not_eq_false', Bool.and_eq_true,
        decide_eq_true_eq] at h
      rcases h with h | h
      · exact Or.inl (h255.mp h)
      · exact Or.inr (h0.mp h)
    · intro h
      simp only [Bool.and_eq_false_iff, Bool.not_eq_false', Bool.and_eq_true,
        decide_eq_true_eq]
      rcases h with h | h
      · exact Or.inl (h255.mpr h)
      · exact Or.inr (h0.mpr h)

/-- Witness for C1: a 2×2 image that is everywhere fully opaque is
reported as having no useful alpha. -/
theorem has_useful_alpha_false_iff_uniform_witness :
    has_useful_alpha (.rgba (newImg 2 2 ⟨10, 20, 30, 255⟩)) = false :=
  (has_useful_alpha_false_iff_uniform (newImg 2 2 ⟨10, 20, 30, 255⟩)).mpr
    (Or.inl fun _ _ _ _ => rfl)

/-- The nine anchor names of the `positions` dictionary. -/
def anchorNames : List String :=
  ["center", "top", "bottom", "left", "right",
   "top-left", "top-right", "bottom-left", "bottom-right"]

/-- C3.  `compute_anchor_position` returns exactly the table value with
integer floor division for each of the nine anchors, and the center
value for any name outside the nine. -/
theorem compute_anchor_position_table (W H w h : Nat) :
    compute_anchor_position (W, H) (w, h) "center" =
      (((W : Int) - w).fdiv 2, ((H : Int) - h).fdiv 2) ∧
    compute_anchor_position (W, H) (w, h) "top" =
      (((W : Int) - w).fdiv 2, 0) ∧
    compute_anchor_position (W, H) (w, h) "bottom" =
      (((W : Int) - w).fdiv 2, (H : Int) - h) ∧
    compute_anchor_position (W, H) (w, h) "left" =
      (0, ((H : Int) - h).fdiv 2) ∧
    compute_anchor_position (W, H) (w, h) "right" =
      ((W : Int) - w, ((H : Int) - h).fdiv 2) ∧
    compute_anchor_position (W, H) (w, h) "top-left" = (0, 0) ∧
    compute_anchor_position (W, H) (w, h) "top-right" = ((W : Int) - w, 0) ∧
    compute_anchor_position (W, H) (w, h) "bottom-left" = (0, (H : Int) - h) ∧
    compute_anchor_position (W, H) (w, h) "bottom-right" =
      ((W : Int) - w, (H : Int) - h) ∧
    ∀ s : String, s ∉ anchorNames →
      compute_anchor_position (W, H) (w, h) s =
        compute_anchor_position (W, H) (w, h) "center" := by
  refine ⟨rfl, rfl, rfl, rfl, rfl, rfl, rfl, rfl, rfl, ?_⟩
  intro s hs
  simp only [anchorNames, List.mem_cons, not_or] at hs
  obtain ⟨h1, h2, h3, h4, h5, h6, h7, h8, h9, -⟩ := hs
  unfold compute_anchor_position
  split
  · exact absurd rfl h2
  · exact absurd rfl h3
  · exact absurd rfl h4
  · exact absurd rfl h5
  · exact absurd rfl h6
  · exact absurd rfl h7
  · exact absurd rfl h8
  · exact absurd rfl h9
  · rfl

/-- Witness for C3: an unrecognized anchor name on a 5×7 container with
a 2×3 overlay lands at the center position `(1, 2)`. -/
theorem compute_anchor_position_table_witness :
    compute_anchor_position (5, 7) (2, 3) "weird" = (1, 2) := by
  have h := (compute_anchor_position_table 5 7 2 3).2.2.2.2.2.2.2.2.2
    "weird" (by decide)
  rw [h]
  decide

/-- Truncation toward zero agrees with the floor on non-negative
rationals. -/
lemma truncQ_of_nonneg (q : ℚ) (h : 0 ≤ q) : truncQ q = ⌊q⌋ := by
  unfold truncQ
  rw [if_pos h]

/-- Counterexample for C2: on a template of width 300 the `"light"`
horizontal shadow offset of the preset is `int(300 * 0.006) = int(1.8) = 1`,
while rounding to the nearest integer would give 2. -/
theorem shadowDx_ne_round_cex :
    shadowDx 300 presetLight ≠ round ((300 : ℚ) * presetLight.offset_x) := by
  have hx : presetLight.offset_x = 6 / 1000 := rfl
  have hq : ((300 : Nat) : ℚ) * (6 / 1000 : ℚ) = 9 / 5 := by norm_num
  have hq' : (300 : ℚ) * (6 / 1000 : ℚ) = 9 / 5 := by norm_num
  have hfl : (⌊(9 / 5 : ℚ)⌋ : ℤ) = 1 := by
    rw [Int.floor_eq_iff]
    norm_num
  have hrd : round ((9 : ℚ) / 5) = 2 := by
    rw [round_eq]
    rw [show (9 : ℚ) / 5 + 1 / 2 = 23 / 10 by norm_num]
    rw [Int.floor_eq_iff]
    norm_num
  unfold shadowDx
  rw [hx, hq', hq, truncQ_of_nonneg _ (by norm_num), hfl, hrd]
  decide

/-- C2 (amended).  For every template size and every shadow-producing
preset (light, medium, strong), the pixel offsets of the shadow are the
truncations `dx = int(template_width × offset_x)`,
`dy = int(template_height × offset_y)` — the floor, not the nearest
integer, since the offsets are non-negative. -/
theorem shadow_offsets_are_floor (W H : Nat) (p : Preset)
    (hp : p = presetLight ∨ p = presetMedium ∨ p = presetStrong) :
    shadowDx W p = ⌊(W : ℚ) * p.offset_x⌋ ∧
    shadowDy H p = ⌊(H : ℚ) * p.offset_y⌋ := by
  have hx : 0 ≤ p.offset_x := by
    rcases hp with h | h | h <;> rw [h] <;> norm_num [presetLight, presetMedium, presetStrong]
  have hy : 0 ≤ p.offset_y := by
    rcases hp with h | h | h <;> rw [h] <;> norm_num [presetLight, presetMedium, presetStrong]
  constructor
  · unfold shadowDx
    exact truncQ_of_nonneg _ (mul_nonneg (Nat.cast_nonneg W) hx)
  · unfold shadowDy
    exact truncQ_of_nonneg _ (mul_nonneg (Nat.cast_nonneg H) hy)

/-- Witness for the amended C2: on a 300×200 template the `"light"`
preset yields `dx = ⌊1.8⌋` and `dy = ⌊1.2⌋`. -/
theorem shadow_offsets_are_floor_witness :
    shadowDx 300 presetLight = ⌊(300 : ℚ) * presetLight.offset_x⌋ ∧
    shadowDy 200 presetLight = ⌊(200 : ℚ) * presetLight.offset_y⌋ := by
  have h := shadow_offsets_are_floor 300 200 presetLight (Or.inl rfl)
  have hc : ((300 : Nat) : ℚ) = (300 : ℚ) := by norm_num
  have hc' : ((200 : Nat) : ℚ) = (200 : ℚ) := by norm_num
  rw [hc, hc'] at h
  exact h

/-- C5.  The resize step leaves the dimensions of the item unchanged when the
factor is `1.0` or non-positive, and otherwise produces
`(max 1 ⌊width·r⌋, max 1 ⌊height·r⌋)`. -/
theorem resizeStep_dims (lanczos : Nat × Nat → Img → Nat → Nat → RGBA)
    (img : Img) (r : ℚ) :
    ((r = 1 ∨ r ≤ 0) → resizeStep lanczos img r = img) ∧
    (0 < r → r ≠ 1 →
      (resizeStep lanczos img r).width = (max 1 (⌊(img.width : ℚ) * r⌋).toNat) ∧
      (resizeStep lanczos img r).height = (max 1 (⌊(img.height : ℚ) * r⌋).toNat)) := by
  constructor
  · rintro (h | h)
    · subst h
      unfold resizeStep
      norm_num
    · unfold resizeStep
      rw [if_pos h]
      norm_num
  · intro h0 h1
    have hne : ¬ r ≤ 0 := not_le.mpr h0
    have hw : 0 ≤ (img.width : ℚ) * r :=
      mul_nonneg (Nat.cast_nonneg _) (le_of_lt h0)
    have hh : 0 ≤ (img.height : ℚ) * r :=
      mul_nonneg (Nat.cast_nonneg _) (le_of_lt h0)
    unfold resizeStep
    rw [if_neg hne, if_pos h1, truncQ_of_nonneg _ hw, truncQ_of_nonneg _ hh]
    exact ⟨rfl, rfl⟩

/-- Witness for C5: scaling a 5×3 image by `1/2` gives a 2×1 image, and
by `1` leaves it untouched. -/
theorem resizeStep_dims_witness :
    (resizeStep (fun _ _ _ _ => ⟨0, 0, 0, 0⟩) (newImg 5 3 ⟨0, 0, 0, 0⟩) (1 / 2)).width = 2 ∧
    resizeStep (fun _ _ _ _ => ⟨0, 0, 0, 0⟩) (newImg 5 3 ⟨0, 0, 0, 0⟩) 1 = newImg 5 3 ⟨0, 0, 0, 0⟩ := by
  constructor
  · have h := (resizeStep_dims (fun _ _ _ _ => ⟨0, 0, 0, 0⟩)
      (newImg 5 3 ⟨0, 0, 0, 0⟩) (1 / 2)).2 (by norm_num) (by norm_num)
    rw [h.1]
    have h5 : ((newImg 5 3 (⟨0, 0, 0, 0⟩ : RGBA)).width : ℚ) = 5 := by norm_num [newImg]
    have hfl : (⌊(5 : ℚ) * (1 / 2)⌋ : ℤ) = 2 := by
      rw [show (5 : ℚ) * (1 / 2) = 5 / 2 by norm_num, Int.floor_eq_iff]
      norm_num
    rw [h5, hfl]
    decide
  · exact (resizeStep_dims (fun _ _ _ _ => ⟨0, 0, 0, 0⟩)
      (newImg 5 3 ⟨0, 0, 0, 0⟩) 1).1 (Or.inl rfl)

/-- C4.  Normalizing a 3-channel RGB image yields a 4-channel image of
the same dimensions whose RGB values equal those of the source and whose alpha
is 255 at every pixel. -/
theorem ensure_rgba_rgb_full_alpha (i : RGBImg) :
    (ensure_rgba (.rgb i)).width = i.width ∧
    (ensure_rgba (.rgb i)).height = i.height ∧
    ∀ x < i.width, ∀ y < i.height,
      (ensure_rgba (.rgb i)).px x y =
        ⟨(i.px x y).r, (i.px x y).g, (i.px x y).b, 255⟩ := by
  refine ⟨rfl, rfl, ?_⟩
  intro x hx y hy
  have hcond : 0 ≤ (x : Int) - 0 ∧ (x : Int) - 0 < (i.width : Int) ∧
      0 ≤ (y : Int) - 0 ∧ (y : Int) - 0 < (i.height : Int) := by omega
  show (pasteRGB (newImg i.width i.height ⟨0, 0, 0, 0⟩) i 0 0).px x y = _
  simp only [pasteRGB]
  rw [if_pos hcond]
  simp

/-- Witness for C4: a 1×1 RGB image becomes its own RGB values with
opaque alpha. -/
theorem ensure_rgba_rgb_full_alpha_witness :
    (ensure_rgba (.rgb ⟨1, 1, fun _ _ => ⟨5, 6, 7⟩⟩)).px 0 0 = ⟨5, 6, 7, 255⟩ :=
  (ensure_rgba_rgb_full_alpha ⟨1, 1, fun _ _ => ⟨5, 6, 7⟩⟩).2.2 0 (by decide) 0 (by decide)

/-- An options record with every key absent. -/
def optsNone : Opts := ⟨none, none, none, none, none, none⟩

/-- C6.  In normal mode with shadow preset `"off"`, the composite is
identical — encoding included — to the composite with the shadow
synthesis step skipped entirely: the `"off"` preset contributes zero
change to the canvas. -/
theorem compose_off_eq_skip_shadow (lanczos : Nat × Nat → Img → Nat → Nat → RGBA)
    (gauss : Nat → Mask → Nat → Nat → Nat)
    (item template : PILImage) (o : Opts)
    (hm : o.composition_mode.getD "normal" = "normal")
    (hs : o.shadow_preset.getD "off" = "off") :
    compose_one_bytes lanczos gauss item template o =
      compose_one_bytes_no_shadow lanczos item template o := by
  have hfin : composeFinalImg lanczos gauss item template o =
      composeFinalImgNoShadow lanczos item template o := by
    simp only [composeFinalImg, composeFinalImgNoShadow, hm]
    rw [if_neg (show ¬("normal" : String) = "frame" by decide),
      if_neg (show ¬("normal" : String) = "frame" by decide)]
    simp only [normalBranch, normalBranchNoShadow, hs, SHADOW_PRESETS,
      Option.getD_some]
    rw [if_neg (show ¬(0 : Int) < presetOff.alpha by decide), ite_self]
  unfold compose_one_bytes compose_one_bytes_no_shadow
  rw [hfin]

/-- Witness for C6: a concrete 1×1 item on a 2×2 template with every
option absent (mode defaults to normal, preset to off). -/
theorem compose_off_eq_skip_shadow_witness :
    compose_one_bytes (fun _ _ _ _ => ⟨0, 0, 0, 0⟩) (fun _ _ _ _ => 0)
      (.rgba (newImg 1 1 ⟨1, 2, 3, 4⟩)) (.rgba (newImg 2 2 ⟨9, 9, 9, 255⟩)) optsNone =
    compose_one_bytes_no_shadow (fun _ _ _ _ => ⟨0, 0, 0, 0⟩)
      (.rgba (newImg 1 1 ⟨1, 2, 3, 4⟩)) (.rgba (newImg 2 2 ⟨9, 9, 9, 255⟩)) optsNone :=
  compose_off_eq_skip_shadow _ _ _ _ optsNone rfl rfl

/-- C8.  In frame mode the shadow preset is never read: two compose
calls differing only in the shadow preset produce identical outputs, and
the flattened result is the fully-opaque white template-sized canvas
with the item alpha-composited at the anchor position and the template
alpha-composited on top. -/
theorem compose_frame_ignores_shadow (lanczos : Nat × Nat → Img → Nat → Nat → RGBA)
    (gauss : Nat → Mask → Nat → Nat → Nat)
    (item template : PILImage) (o : Opts) (s : Option String)
    (hm : o.composition_mode.getD "normal" = "frame") :
    compose_one_bytes lanczos gauss item template o =
      compose_one_bytes lanczos gauss item template { o with shadow_preset := s } ∧
    composeFinalImg lanczos gauss item template o =
      frameModeSpec (resizeStep lanczos (ensure_rgba item) (o.resize_factor.getD 1))
        (ensure_rgba template)
        (compute_anchor_position
          ((ensure_rgba template).width, (ensure_rgba template).height)
          ((resizeStep lanczos (ensure_rgba item) (o.resize_factor.getD 1)).width,
           (resizeStep lanczos (ensure_rgba item) (o.resize_factor.getD 1)).height)
          (o.anchor.getD "center")) := by
  obtain ⟨orf, oan, ocm, osp, oof, oq⟩ := o
  simp only [Opts.composition_mode] at hm
  constructor
  · simp only [compose_one_bytes, composeFinalImg, encodeOut, hm, ite_true,
      if_true]
  · simp only [composeFinalImg, hm, ite_true, if_true]
    rfl

/-- Witness for C8: frame mode with absent vs `"strong"` shadow preset
on concrete 1×1 and 2×2 inputs. -/
theorem compose_frame_ignores_shadow_witness :
    compose_one_bytes (fun _ _ _ _ => ⟨0, 0, 0, 0⟩) (fun _ _ _ _ => 0)
      (.rgba (newImg 1 1 ⟨1, 2, 3, 4⟩)) (.rgba (newImg 2 2 ⟨9, 9, 9, 128⟩))
      ⟨none, none, some "frame", none, none, none⟩ =
    compose_one_bytes (fun _ _ _ _ => ⟨0, 0, 0, 0⟩) (fun _ _ _ _ => 0)
      (.rgba (newImg 1 1 ⟨1, 2, 3, 4⟩)) (.rgba (newImg 2 2 ⟨9, 9, 9, 128⟩))
      ⟨none, none, some "frame", some "strong", none, none⟩ :=
  (compose_frame_ignores_shadow _ _ _ _
    ⟨none, none, some "frame", none, none, none⟩ (some "strong") rfl).1

/-! Byte-blend lemmas for the JPEG white-flattening. -/

lemma muldiv255_zero (v : Nat) : muldiv255 v 0 = 0 := by
  unfold muldiv255
  omega

lemma muldiv255_full (v : Nat) (hv : v ≤ 255) : muldiv255 v 255 = v := by
  unfold muldiv255
  omega

lemma blendMask_zero (v : Nat) : blendMask 0 255 v = 255 := by
  unfold blendMask
  rw [muldiv255_zero, muldiv255_full 255 (by omega)]

lemma blendMask_full (v : Nat) (hv : v ≤ 255) : blendMask 255 255 v = v := by
  unfold blendMask
  rw [muldiv255_full v hv]
  have h : muldiv255 255 (255 - 255) = 0 := by
    rw [Nat.sub_self]
    exact muldiv255_zero 255
  omega

/-- C7.  When the output format resolves to JPEG, the encoder flattens
the RGBA image onto an opaque white background — each channel blended
between white and the source under the alpha of the pixel (the PIL rounded
`(255·(255-α) + v·α)/255` kernel) — discards alpha, and returns
extension `"jpg"`.  Fully transparent pixels come out white and fully
opaque pixels keep their own color. -/
theorem encode_jpeg_flattens_onto_white (final : Img) (o : Opts)
    (hfmt : pyUpper (o.out_format.getD "JPEG") = "JPEG")
    (hval : ∀ x y, (final.px x y).r ≤ 255 ∧ (final.px x y).g ≤ 255 ∧
      (final.px x y).b ≤ 255 ∧ (final.px x y).a ≤ 255) :
    (encodeOut final o).2 = "jpg" ∧
    (encodeOut final o).1 = OutImage.jpeg (flattenWhite final) (o.quality.getD 92) ∧
    ∀ x y,
      ((flattenWhite final).px x y).r =
        muldiv255 255 (255 - (final.px x y).a) +
          muldiv255 (final.px x y).r (final.px x y).a ∧
      ((flattenWhite final).px x y).g =
        muldiv255 255 (255 - (final.px x y).a) +
          muldiv255 (final.px x y).g (final.px x y).a ∧
      ((flattenWhite final).px x y).b =
        muldiv255 255 (255 - (final.px x y).a) +
          muldiv255 (final.px x y).b (final.px x y).a ∧
      ((final.px x y).a = 0 → (flattenWhite final).px x y = ⟨255, 255, 255⟩) ∧
      ((final.px x y).a = 255 → (flattenWhite final).px x y =
        ⟨(final.px x y).r, (final.px x y).g, (final.px x y).b⟩) := by
  have henc : encodeOut final o =
      (OutImage.jpeg (flattenWhite final) (o.quality.getD 92), "jpg") := by
    unfold encodeOut
    rw [if_pos hfmt]
  refine ⟨by rw [henc], by rw [henc], ?_⟩
  intro x y
  obtain ⟨hr, hg, hb, ha⟩ := hval x y
  refine ⟨rfl, rfl, rfl, ?_, ?_⟩
  · intro h0
    show RGB.mk (blendMask (final.px x y).a 255 (final.px x y).r)
      (blendMask (final.px x y).a 255 (final.px x y).g)
      (blendMask (final.px x y).a 255 (final.px x y).b) = _
    rw [h0, blendMask_zero, blendMask_zero, blendMask_zero]
  · intro h255
    show RGB.mk (blendMask (final.px x y).a 255 (final.px x y).r)
      (blendMask (final.px x y).a 255 (final.px x y).g)
      (blendMask (final.px x y).a 255 (final.px x y).b) = _
    rw [h255, blendMask_full _ hr, blendMask_full _ hg, blendMask_full _ hb]

/-- Witness for C7: a 1×1 fully-transparent pixel encodes as JPEG with
extension `"jpg"` and comes out white. -/
theorem encode_jpeg_flattens_onto_white_witness :
    (encodeOut (newImg 1 1 ⟨10, 20, 30, 0⟩) optsNone).2 = "jpg" ∧
    (flattenWhite (newImg 1 1 ⟨10, 20, 30, 0⟩)).px 0 0 = ⟨255, 255, 255⟩ :=
  ⟨(encode_jpeg_flattens_onto_white (newImg 1 1 ⟨10, 20, 30, 0⟩) optsNone
      (by decide) (fun _ _ => show (10 : Nat) ≤ 255 ∧ (20 : Nat) ≤ 255 ∧
        (30 : Nat) ≤ 255 ∧ (0 : Nat) ≤ 255 by decide)).1,
   ((encode_jpeg_flattens_onto_white (newImg 1 1 ⟨10, 20, 30, 0⟩) optsNone
      (by decide) (fun _ _ => show (10 : Nat) ≤ 255 ∧ (20 : Nat) ≤ 255 ∧
        (30 : Nat) ≤ 255 ∧ (0 : Nat) ≤ 255 by decide)).2.2 0 0).2.2.2.1 rfl⟩

/-- C9.  Any present output-format string that does not uppercase to
`"JPEG"` silently selects PNG encoding with the RGBA image intact and
extension `"png"`; no error is ever signalled. -/
theorem encode_unrecognized_defaults_png (final : Img) (o : Opts) (s : String)
    (hf : o.out_format = some s) (hne : pyUpper s ≠ "JPEG") :
    encodeOut final o = (OutImage.png final, "png") := by
  unfold encodeOut
  rw [hf, Option.getD_some, if_neg hne]

/-- Witness for C9: format string `"webp"` yields the untouched PNG
output. -/
theorem encode_unrecognized_defaults_png_witness :
    encodeOut (newImg 1 1 ⟨10, 20, 30, 0⟩)
      { optsNone with out_format := some "webp" } =
      (OutImage.png (newImg 1 1 ⟨10, 20, 30, 0⟩), "png") :=
  encode_unrecognized_defaults_png (newImg 1 1 ⟨10, 20, 30, 0⟩)
    { optsNone with out_format := some "webp" } "webp" rfl (by decide)

/-- C10.  An absent `out_format` key defaults to JPEG encoding with
extension `"jpg"` (not the PNG fallback), and format matching is
case-insensitive: a present string selects JPEG exactly when its
uppercasing is `"JPEG"`. -/
theorem out_format_absent_defaults_jpeg (final : Img) (o : Opts)
    (hf : o.out_format = none) :
    encodeOut final o =
      (OutImage.jpeg (flattenWhite final) (o.quality.getD 92), "jpg") ∧
    ∀ s : String,
      (encodeOut final { o with out_format := some s }).2 = "jpg" ↔
        pyUpper s = "JPEG" := by
  constructor
  · unfold encodeOut
    rw [hf, Option.getD_none, if_pos (by decide)]
  · intro s
    unfold encodeOut
    by_cases hc : pyUpper s = "JPEG"
    · rw [show ({ o with out_format := some s } : Opts).out_format = some s from rfl,
        Option.getD_some, if_pos hc]
      simp [hc]
    · rw [show ({ o with out_format := some s } : Opts).out_format = some s from rfl,
        Option.getD_some, if_neg hc]
      simp [hc]

/-- Witness for C10: with no `out_format` the extension is `"jpg"`, and
the lowercase string `"jpeg"` also selects JPEG. -/
theorem out_format_absent_defaults_jpeg_witness :
    (encodeOut (newImg 1 1 ⟨0, 0, 0, 0⟩) optsNone).2 = "jpg" ∧
    ((encodeOut (newImg 1 1 ⟨0, 0, 0, 0⟩)
        { optsNone with out_format := some "jpeg" }).2 = "jpg" ↔
      pyUpper "jpeg" = "JPEG") :=
  ⟨by rw [(out_format_absent_defaults_jpeg (newImg 1 1 ⟨0, 0, 0, 0⟩) optsNone rfl).1],
   (out_format_absent_defaults_jpeg (newImg 1 1 ⟨0, 0, 0, 0⟩) optsNone rfl).2 "jpeg"⟩

end NBSchool
